import Mathlib

/-
Formal model of the PyPaint canvas drawing and history engine
(src/paint.py, classes DrawingArea and Window).

The Python program keeps several QImage objects reachable from attribute
slots of the DrawingArea widget (`image`, `savedImage`, `resizeSavedImage`).
Assignment between those slots copies the *reference*, not the pixels, and
QPainter drawing plus QImage.fill / QImage.loadFromData mutate the pointed-to
object in place, while QImage.scaled and the QImage constructor allocate a
fresh object.  We therefore model the program state with an explicit heap of
image buffers (`heap : List Image`) addressed by natural-number references,
so that aliasing between the three slots is represented faithfully.
-/

/-- An RGB color value, as stored in a Format_RGB32 pixel. -/
abbrev Color := Nat

def Qt.white : Color := 0xFFFFFF

def Qt.black : Color := 0x000000

/-- QPoint with integer coordinates.  `QPoint()` is the origin (0, 0). -/
structure Point where
  x : Int
  y : Int
deriving DecidableEq

/-- The default-constructed `QPoint()`, which the source uses both as the
initial value of `lastPoint` and as the "no pending anchor" sentinel. -/
def Point.zero : Point := ⟨0, 0⟩

/-- src/paint.py lines 15-17: the two drawing modes. -/
inductive DrawMode where
  | Point
  | Line
deriving DecidableEq

inductive PenStyle where
  | SolidLine
  | DashLine
  | DotLine
deriving DecidableEq

inductive PenCapStyle where
  | SquareCap
  | FlatCap
  | RoundCap
deriving DecidableEq

inductive PenJoinStyle where
  | RoundJoin
  | MiterJoin
  | BevelJoin
deriving DecidableEq

inductive MouseButton where
  | LeftButton
  | RightButton
  | MiddleButton
deriving DecidableEq

/-- A QImage: dimensions plus a row-major pixel buffer. -/
structure Image where
  width : Nat
  height : Nat
  pixels : List Color
deriving DecidableEq

/-- The null QImage, as produced by `QImage(0, 0, ...)` or by a failed load. -/
def Image.null : Image := ⟨0, 0, []⟩

/-- A buffer is well formed when its pixel list matches its dimensions. -/
def Image.WF (im : Image) : Prop := im.pixels.length = im.width * im.height

/-- `QImage(w, h, Format_RGB32)` followed by `fill(Qt.white)`. -/
def whiteImage (w h : Nat) : Image := ⟨w, h, List.replicate (w * h) Qt.white⟩

/-- `QImage.fill(c)`: every pixel of the buffer is set to `c`, in place. -/
def Image.fill (im : Image) (c : Color) : Image :=
  ⟨im.width, im.height, List.replicate (im.width * im.height) c⟩

/-- Read the pixel at column `x`, row `y` (white outside the buffer). -/
def Image.pixel (im : Image) (x y : Nat) : Color :=
  im.pixels.getD (y * im.width + x) Qt.white

/-- `QImage.scaled(w, h, IgnoreAspectRatio)`: a freshly allocated buffer whose
pixels sample the source by nearest neighbour (Qt's default fast transform);
scaling a null image yields the null image, as in Qt. -/
def Image.scaled (im : Image) (w h : Nat) : Image :=
  if im.width = 0 ∨ im.height = 0 then Image.null
  else ⟨w, h, (List.range (w * h)).map fun i =>
    im.pixel (i % w * im.width / w) (i / w * im.height / h)⟩

/-- Write one pixel, ignoring positions outside the buffer. -/
def Image.setPixel (im : Image) (x y : Int) (c : Color) : Image :=
  if 0 ≤ x ∧ x < (im.width : Int) ∧ 0 ≤ y ∧ y < (im.height : Int) then
    ⟨im.width, im.height, im.pixels.set (y.toNat * im.width + x.toNat) c⟩
  else im

/-- The pen assembled by `QPen(brushColor, brushSize, brushStyle, brushCap,
brushJoin)` at each paint call. -/
structure QPen where
  color : Color
  width : Nat
  style : PenStyle
  cap : PenCapStyle
  join : PenJoinStyle
deriving DecidableEq

/-- Modelled from the spec: the pixel coverage of one pen stamp (§4.1
drawPoint) — QPainter itself is toolkit code outside this repository.  The
spec pins only the width-1 Solid case ("a width-1 Solid brush sets exactly
the single pixel at position"); wider pens are modelled as a centred
width-by-width square of pixels. -/
def Image.stamp (im : Image) (pen : QPen) (p : Point) : Image :=
  let lo : Int := -(((pen.width : Int) - 1) / 2)
  (List.range pen.width).foldl (fun im1 i =>
    (List.range pen.width).foldl (fun im2 j =>
      im2.setPixel (p.x + lo + (i : Int)) (p.y + lo + (j : Int)) pen.color) im1) im

/-- Modelled from the spec: the integer positions rasterized for a straight
segment (§4.1 drawLine) — QPainter itself is toolkit code outside this
repository.  The degenerate case `p = q` yields the single position `p`, and
an axis-aligned segment yields every integer position between its endpoints,
as the spec requires. -/
def linePositions (p q : Point) : List Point :=
  let dx := q.x - p.x
  let dy := q.y - p.y
  let steps : Nat := max dx.natAbs dy.natAbs
  (List.range (steps + 1)).map fun t =>
    ⟨p.x + (t : Int) * dx / (steps : Int), p.y + (t : Int) * dy / (steps : Int)⟩

/-- `QPainter.drawLine(p, q)` with the given pen. -/
def Image.drawLine (im : Image) (pen : QPen) (p q : Point) : Image :=
  (linePositions p q).foldl (fun im1 pt => im1.stamp pen pt) im

/-- `QPainter.drawPoint(p)` with the given pen. -/
def Image.drawPoint (im : Image) (pen : QPen) (p : Point) : Image :=
  im.stamp pen p

/-- The engine state: the QImage heap, the three image-reference slots of
`DrawingArea`, the brush settings, the stroke-input fields, and the current
size of the drawing-area widget (`self.width()` / `self.height()`). -/
structure PaintState where
  heap : List Image
  resizeSavedImage : Nat
  savedImage : Nat
  image : Nat
  drawing : Bool
  brushSize : Nat
  brushColor : Color
  brushStyle : PenStyle
  brushCap : PenCapStyle
  brushJoin : PenJoinStyle
  drawMode : DrawMode
  lastPoint : Point
  areaWidth : Nat
  areaHeight : Nat
deriving DecidableEq

/-- Dereference an image slot (the null image as an out-of-heap default). -/
def PaintState.buf (s : PaintState) (r : Nat) : Image :=
  s.heap.getD r Image.null

/-- The live canvas buffer `self.image` points to. -/
def PaintState.live (s : PaintState) : Image := s.buf s.image

/-- The pen built from the current brush settings (lines 96, 109, 127). -/
def PaintState.pen (s : PaintState) : QPen :=
  ⟨s.brushColor, s.brushSize, s.brushStyle, s.brushCap, s.brushJoin⟩

/-- DrawingArea.__init__ (lines 44-75): allocates `resizeSavedImage` and
`savedImage` as `QImage(0, 0)`, allocates `image` at the widget's current
size filled white, and sets the default brush, mode and `lastPoint`. -/
def initState (w h : Nat) : PaintState :=
  { heap := [Image.null, Image.null, whiteImage w h]
    resizeSavedImage := 0
    savedImage := 1
    image := 2
    drawing := false
    brushSize := 1
    brushColor := Qt.black
    brushStyle := PenStyle.SolidLine
    brushCap := PenCapStyle.RoundCap
    brushJoin := PenJoinStyle.RoundJoin
    drawMode := DrawMode.Point
    lastPoint := Point.zero
    areaWidth := w
    areaHeight := h }

/-- DrawingArea.resizeEvent (lines 82-83): after the layout has resized the
widget to `newW`×`newH`, rebinds `self.image` to the freshly allocated
`self.image.scaled(self.width(), self.height())`. -/
def DrawingArea.resizeEvent (s : PaintState) (newW newH : Nat) : PaintState :=
  { s with areaWidth := newW
           areaHeight := newH
           heap := s.heap ++ [Image.scaled s.live newW newH]
           image := s.heap.length }

/-- DrawingArea.mousePressEvent (lines 89-116).  In Point mode it draws a
point at the press position, sets the drawing flag and records the position
in `lastPoint`; in Line mode it records the position as anchor when
`lastPoint == QPoint()`, and otherwise draws a line from the anchor to the
position and resets `lastPoint` to `QPoint()`.  Drawing mutates the live
buffer in place. -/
def DrawingArea.mousePressEvent (s : PaintState) (button : MouseButton) (pos : Point) : PaintState :=
  if button = MouseButton.LeftButton then
    if s.drawMode = DrawMode.Point then
      { s with heap := s.heap.set s.image (s.live.drawPoint s.pen pos)
               drawing := true
               lastPoint := pos }
    else if s.drawMode = DrawMode.Line then
      if s.lastPoint = Point.zero then
        { s with lastPoint := pos }
      else
        { s with heap := s.heap.set s.image (s.live.drawLine s.pen s.lastPoint pos)
                 lastPoint := Point.zero }
    else s
  else s

/-- DrawingArea.mouseMoveEvent (lines 123-130): only when the left button is
held, the drawing flag is set and the mode is Point, draws a line from
`lastPoint` to the current position and updates `lastPoint`. -/
def DrawingArea.mouseMoveEvent (s : PaintState) (leftHeld : Bool) (pos : Point) : PaintState :=
  if leftHeld ∧ s.drawing ∧ s.drawMode = DrawMode.Point then
    { s with heap := s.heap.set s.image (s.live.drawLine s.pen s.lastPoint pos)
             lastPoint := pos }
  else s

/-- Line 137 of src/paint.py reads `if event.button == Qt.LeftButton:` with
`event.button` left uncalled: Python compares the *bound method object*
itself with the enum value, and a method object never equals an int, so the
condition evaluates to False for every release event, whichever button was
released. -/
def buttonAttributeEqualsLeftButton (_button : MouseButton) : Bool := false

/-- DrawingArea.mouseReleaseEvent (lines 136-143): under the (never-true)
guard, `savedImage` receives the old `resizeSavedImage` reference,
`resizeSavedImage` receives the live `image` reference, and the drawing flag
is cleared. -/
def DrawingArea.mouseReleaseEvent (s : PaintState) (button : MouseButton) : PaintState :=
  if buttonAttributeEqualsLeftButton button then
    { s with savedImage := s.resizeSavedImage
             resizeSavedImage := s.image
             drawing := false }
  else s

/-- Window.changeDrawMode (lines 307-319): sets the draw mode according to
the text of the triggering action ("Point" or "Line"), then unconditionally
resets `lastPoint` to `QPoint()`.  (The `setChecked` calls on the two menu
actions only affect the GUI and are not modelled.) -/
def Window.changeDrawMode (s : PaintState) (check : String) : PaintState :=
  let s1 :=
    if check = "Point" then { s with drawMode := DrawMode.Point }
    else if check = "Line" then { s with drawMode := DrawMode.Line }
    else s
  { s1 with lastPoint := Point.zero }

/-- Window.resizeEvent (lines 545-548): after the layout has resized the
drawing area to `newW`×`newH`, when `resizeSavedImage` is not zero wide it
rebinds `image` to a fresh `resizeSavedImage.scaled(...)` buffer. -/
def Window.resizeEvent (s : PaintState) (newW newH : Nat) : PaintState :=
  if (s.buf s.resizeSavedImage).width ≠ 0 then
    { s with areaWidth := newW
             areaHeight := newH
             heap := s.heap ++ [Image.scaled (s.buf s.resizeSavedImage) newW newH]
             image := s.heap.length }
  else
    { s with areaWidth := newW, areaHeight := newH }

/-- Window.undo (lines 587-604): `copyImage` binds the live reference; the
live slot is rebound either to a fresh `savedImage.scaled(...)` buffer (when
`savedImage` is not zero wide) or to a fresh white `QImage` at the widget
size; finally `savedImage` receives the old live reference. -/
def Window.undo (s : PaintState) : PaintState :=
  let copyImage := s.image
  let newLive : Image :=
    if (s.buf s.savedImage).width ≠ 0 then
      Image.scaled (s.buf s.savedImage) s.areaWidth s.areaHeight
    else
      whiteImage s.areaWidth s.areaHeight
  { s with heap := s.heap ++ [newLive]
           image := s.heap.length
           savedImage := copyImage }

/-- Window.clear (lines 610-612): `self.imageArea.image.fill(Qt.white)`
mutates the live buffer in place; no other field is touched. -/
def Window.clear (s : PaintState) : PaintState :=
  { s with heap := s.heap.set s.image (Image.fill s.live Qt.white) }

/-- Window.open (lines 566-580), after a file was chosen and read.  The
argument is the result of decoding the chosen bytes: `some d` when they
decode to image `d`, `none` when decoding fails.  `loadFromData` mutates the
live QImage in place (and, as in Qt, turns it into the null image on
failure); the live slot is then rebound to a fresh `scaled(...)` buffer,
which `resizeSavedImage` is also pointed at. -/
def Window.open (s : PaintState) (content : Option Image) : PaintState :=
  let decoded : Image :=
    match content with
    | some d => d
    | none => Image.null
  let heap1 := s.heap.set s.image decoded
  { s with heap := heap1 ++ [Image.scaled decoded s.areaWidth s.areaHeight]
           image := heap1.length
           resizeSavedImage := heap1.length }

/-- Window.sizeSliderChange (lines 502-504). -/
def Window.sizeSliderChange (s : PaintState) (value : Nat) : PaintState :=
  { s with brushSize := value }

/-- Window.changeBrushJoin (lines 426-435), keyed on the button text. -/
def Window.changeBrushJoin (s : PaintState) (text : String) (isChecked : Bool) : PaintState :=
  let s1 := if text = "Round" ∧ isChecked then { s with brushJoin := PenJoinStyle.RoundJoin } else s
  let s2 := if text = "Miter" ∧ isChecked then { s1 with brushJoin := PenJoinStyle.MiterJoin } else s1
  if text = "Bevel" ∧ isChecked then { s2 with brushJoin := PenJoinStyle.BevelJoin } else s2

/-- Window.changeBrushCap (lines 441-450), keyed on the button text. -/
def Window.changeBrushCap (s : PaintState) (text : String) (isChecked : Bool) : PaintState :=
  let s1 := if text = "Square" ∧ isChecked then { s with brushCap := PenCapStyle.SquareCap } else s
  let s2 := if text = "Flat" ∧ isChecked then { s1 with brushCap := PenCapStyle.FlatCap } else s1
  if text = "Round" ∧ isChecked then { s2 with brushCap := PenCapStyle.RoundCap } else s2

/-- Window.changeBrushStyle (lines 456-465), keyed on the button text (which
carries a leading space in the source). -/
def Window.changeBrushStyle (s : PaintState) (text : String) (isChecked : Bool) : PaintState :=
  let s1 := if text = " Solid" ∧ isChecked then { s with brushStyle := PenStyle.SolidLine } else s
  let s2 := if text = " Dash" ∧ isChecked then { s1 with brushStyle := PenStyle.DashLine } else s1
  if text = " Dot" ∧ isChecked then { s2 with brushStyle := PenStyle.DotLine } else s2

/-- Window.showColorDialog (lines 535-539): sets the brush color when the
picked color is valid. -/
def Window.showColorDialog (s : PaintState) (picked : Option Color) : PaintState :=
  match picked with
  | some c => { s with brushColor := c }
  | none => s

/-- Modelled from the spec: §4.2 names the stroke-machine states Idle,
PointDrawing and LinePending.  This view maps the code's concrete fields
onto them — PointDrawing while the drawing flag is set, LinePending while a
Line-mode anchor is pending, Idle otherwise. -/
inductive StrokeMachine where
  | Idle
  | PointDrawing
  | LinePending
deriving DecidableEq

/-- Modelled from the spec: the abstraction function from concrete engine
state to the spec's stroke-machine state. -/
def specStrokeState (s : PaintState) : StrokeMachine :=
  if s.drawing then StrokeMachine.PointDrawing
  else if s.drawMode = DrawMode.Line ∧ s.lastPoint ≠ Point.zero then StrokeMachine.LinePending
  else StrokeMachine.Idle

/-- The states the program can actually reach: the initial widget state
closed under every event handler and menu action, with arbitrary event
arguments. -/
inductive Reachable : PaintState → Prop where
  | init (w h : Nat) : Reachable (initState w h)
  | press (s : PaintState) (b : MouseButton) (p : Point) :
      Reachable s → Reachable (DrawingArea.mousePressEvent s b p)
  | move (s : PaintState) (held : Bool) (p : Point) :
      Reachable s → Reachable (DrawingArea.mouseMoveEvent s held p)
  | release (s : PaintState) (b : MouseButton) :
      Reachable s → Reachable (DrawingArea.mouseReleaseEvent s b)
  | areaResized (s : PaintState) (w h : Nat) :
      Reachable s → Reachable (DrawingArea.resizeEvent s w h)
  | windowResized (s : PaintState) (w h : Nat) :
      Reachable s → Reachable (Window.resizeEvent s w h)
  | modeChanged (s : PaintState) (t : String) :
      Reachable s → Reachable (Window.changeDrawMode s t)
  | undone (s : PaintState) : Reachable s → Reachable (Window.undo s)
  | cleared (s : PaintState) : Reachable s → Reachable (Window.clear s)
  | opened (s : PaintState) (c : Option Image) :
      Reachable s → Reachable (Window.open s c)
  | sized (s : PaintState) (v : Nat) :
      Reachable s → Reachable (Window.sizeSliderChange s v)
  | joinChanged (s : PaintState) (t : String) (ck : Bool) :
      Reachable s → Reachable (Window.changeBrushJoin s t ck)
  | capChanged (s : PaintState) (t : String) (ck : Bool) :
      Reachable s → Reachable (Window.changeBrushCap s t ck)
  | styleChanged (s : PaintState) (t : String) (ck : Bool) :
      Reachable s → Reachable (Window.changeBrushStyle s t ck)
  | colorChanged (s : PaintState) (c : Option Color) :
      Reachable s → Reachable (Window.showColorDialog s c)

/-- The reference invariant the reachable states maintain: the live and undo
slots are in-heap and the undo slot never aliases the live slot (the only
assignment that could alias them, in mouseReleaseEvent, is dead code). -/
def EngineInv (s : PaintState) : Prop :=
  s.image < s.heap.length ∧ s.savedImage < s.heap.length ∧ s.savedImage ≠ s.image

/-
Concrete event traces used by the counterexamples and witnesses below.
-/

/-- Two completed point strokes: press at `p1`, release, press at `p2`,
release (all with the left button). -/
def twoStrokes (s : PaintState) (p1 p2 : Point) : PaintState :=
  DrawingArea.mouseReleaseEvent
    (DrawingArea.mousePressEvent
      (DrawingArea.mouseReleaseEvent
        (DrawingArea.mousePressEvent s MouseButton.LeftButton p1)
        MouseButton.LeftButton)
      MouseButton.LeftButton p2)
    MouseButton.LeftButton

/-- State after completed stroke A on a fresh 2×1 canvas: press at (0, 0),
release. -/
def c2AfterA : PaintState :=
  DrawingArea.mouseReleaseEvent
    (DrawingArea.mousePressEvent (initState 2 1) MouseButton.LeftButton ⟨0, 0⟩)
    MouseButton.LeftButton

/-- State after stroke A then completed stroke B at (1, 0). -/
def c2AfterB : PaintState :=
  DrawingArea.mouseReleaseEvent
    (DrawingArea.mousePressEvent c2AfterA MouseButton.LeftButton ⟨1, 0⟩)
    MouseButton.LeftButton

/-- A fresh 2×1 canvas with one black pixel drawn at (0, 0). -/
def c3Drawn : PaintState :=
  DrawingArea.mousePressEvent (initState 2 1) MouseButton.LeftButton ⟨0, 0⟩

/-- A fresh 60×1 canvas switched to Line mode. -/
def c4LineMode : PaintState := Window.changeDrawMode (initState 60 1) "Line"

/-- Line mode, after a press at (0, 0). -/
def c4Press1 : PaintState :=
  DrawingArea.mousePressEvent c4LineMode MouseButton.LeftButton ⟨0, 0⟩

/-- Line mode, after presses at (0, 0) and then (50, 0). -/
def c4Press2 : PaintState :=
  DrawingArea.mousePressEvent c4Press1 MouseButton.LeftButton ⟨50, 0⟩

/-- A fresh 4×1 canvas switched to Line mode (witness state). -/
def c4SmallLineMode : PaintState := Window.changeDrawMode (initState 4 1) "Line"

/-- A 1×1 red source image, standing for successfully decoded file bytes. -/
def redDot : Image := ⟨1, 1, [0xFF0000]⟩

/-- A fresh 2×1 canvas after successfully opening the red 1×1 image. -/
def c5Opened : PaintState := Window.open (initState 2 1) (some redDot)

/-- ... and after then pressing (Point mode) at (0, 0). -/
def c5Drawn : PaintState :=
  DrawingArea.mousePressEvent c5Opened MouseButton.LeftButton ⟨0, 0⟩

/-- Open the red image on a 2×1 canvas, then a drawing-area resize to the
same 2×1 size (which rebinds the live slot to a fresh buffer, breaking the
alias with `resizeSavedImage`), then a press at (0, 0). -/
def c6Drawn : PaintState :=
  DrawingArea.mousePressEvent
    (DrawingArea.resizeEvent (Window.open (initState 2 1) (some redDot)) 2 1)
    MouseButton.LeftButton ⟨0, 0⟩

/-- A 2×1 canvas whose live image has been nulled by a failed open. -/
def c7Broken : PaintState := Window.open (initState 2 1) none

/-- A reachable state with the drawing flag still set (from a Point-mode
press, never cleared because the release handler is dead) and a pending
Line-mode anchor at (1, 0). -/
def c8Pending : PaintState :=
  DrawingArea.mousePressEvent
    (Window.changeDrawMode
      (DrawingArea.mousePressEvent (initState 2 1) MouseButton.LeftButton ⟨0, 0⟩)
      "Line")
    MouseButton.LeftButton ⟨1, 0⟩

/-- A 2×1 canvas in Line mode with a pending anchor at (1, 0). -/
def c9State : PaintState :=
  DrawingArea.mousePressEvent (Window.changeDrawMode (initState 2 1) "Line")
    MouseButton.LeftButton ⟨1, 0⟩

/-
Helper lemmas about list reads through `set` and `++`, used to reason about
in-place mutation and fresh allocation on the image heap.
-/

theorem getD_set_self {α : Type} (l : List α) (i : Nat) (a d : α) (h : i < l.length) :
    (l.set i a).getD i d = a := by
  induction l generalizing i with
  | nil => simp at h
  | cons x t ih =>
    cases i with
    | zero => rfl
    | succ n =>
      have hn : n < t.length := by simpa using h
      simpa using ih n hn

theorem getD_set_ne {α : Type} (l : List α) (i j : Nat) (a d : α) (h : i ≠ j) :
    (l.set i a).getD j d = l.getD j d := by
  induction l generalizing i j with
  | nil => simp
  | cons x t ih =>
    cases i with
    | zero =>
      cases j with
      | zero => exact absurd rfl h
      | succ m => simp
    | succ n =>
      cases j with
      | zero => simp
      | succ m =>
        have : n ≠ m := fun hc => h (by rw [hc])
        simpa using ih n m this

theorem getD_append_one {α : Type} (l : List α) (a : α) (j : Nat) (d : α) :
    (l ++ [a]).getD j d = if j = l.length then a else l.getD j d := by
  induction l generalizing j with
  | nil =>
    cases j with
    | zero => simp
    | succ m => simp [List.getD]
  | cons x t ih =>
    cases j with
    | zero => simp
    | succ m => simpa using ih m

theorem foldl_invariant {α β : Type} (P : α → Prop) (f : α → β → α)
    (hf : ∀ a b, P a → P (f a b)) :
    ∀ (l : List β) (a : α), P a → P (l.foldl f a) := by
  intro l
  induction l with
  | nil => intro a ha; exact ha
  | cons x t ih => intro a ha; exact ih _ (hf a x ha)

theorem range_length_map_getD {α : Type} (l : List α) (d : α) :
    (List.range l.length).map (fun i => l.getD i d) = l := by
  induction l with
  | nil => rfl
  | cons a t ih =>
    rw [List.length_cons, List.range_succ_eq_map, List.map_cons, List.map_map]
    have hc : ((fun i => (a :: t).getD i d) ∘ Nat.succ) = fun i => t.getD i d := by
      funext i
      simp
    rw [hc, ih]
    simp

/-
Shape preservation: drawing never changes a buffer's dimensions or its pixel
count, so well-formedness survives every stroke.
-/

theorem Image.setPixel_shape (im : Image) (x y : Int) (c : Color) :
    (im.setPixel x y c).width = im.width ∧ (im.setPixel x y c).height = im.height ∧
      (im.setPixel x y c).pixels.length = im.pixels.length := by
  unfold Image.setPixel
  split <;> simp

theorem Image.stamp_shape (im : Image) (pen : QPen) (p : Point) :
    (im.stamp pen p).width = im.width ∧ (im.stamp pen p).height = im.height ∧
      (im.stamp pen p).pixels.length = im.pixels.length := by
  unfold Image.stamp
  refine foldl_invariant
    (fun j : Image => j.width = im.width ∧ j.height = im.height ∧ j.pixels.length = im.pixels.length)
    _ ?_ _ _ ⟨rfl, rfl, rfl⟩
  intro a b ha
  refine foldl_invariant
    (fun j : Image => j.width = im.width ∧ j.height = im.height ∧ j.pixels.length = im.pixels.length)
    _ ?_ _ _ ha
  intro a2 b2 ha2
  have h := Image.setPixel_shape a2 (p.x + -(((pen.width : Int) - 1) / 2) + (b : Int))
    (p.y + -(((pen.width : Int) - 1) / 2) + (b2 : Int)) pen.color
  exact ⟨h.1.trans ha2.1, h.2.1.trans ha2.2.1, h.2.2.trans ha2.2.2⟩

theorem Image.drawLine_shape (im : Image) (pen : QPen) (p q : Point) :
    (im.drawLine pen p q).width = im.width ∧ (im.drawLine pen p q).height = im.height ∧
      (im.drawLine pen p q).pixels.length = im.pixels.length := by
  unfold Image.drawLine
  refine foldl_invariant
    (fun j : Image => j.width = im.width ∧ j.height = im.height ∧ j.pixels.length = im.pixels.length)
    _ ?_ _ _ ⟨rfl, rfl, rfl⟩
  intro a b ha
  have h := Image.stamp_shape a pen b
  exact ⟨h.1.trans ha.1, h.2.1.trans ha.2.1, h.2.2.trans ha.2.2⟩

theorem Image.drawPoint_shape (im : Image) (pen : QPen) (p : Point) :
    (im.drawPoint pen p).width = im.width ∧ (im.drawPoint pen p).height = im.height ∧
      (im.drawPoint pen p).pixels.length = im.pixels.length :=
  Image.stamp_shape im pen p

/-- Rescaling a well-formed buffer to its own dimensions reproduces it
exactly (the identity nearest-neighbour resample). -/
theorem Image.scaled_self (im : Image) (hwf : im.WF) (hw : 0 < im.width) (hh : 0 < im.height) :
    im.scaled im.width im.height = im := by
  unfold Image.scaled
  rw [if_neg (by omega)]
  obtain ⟨w, h, px⟩ := im
  simp only [Image.WF] at hwf
  dsimp only at hwf hw hh ⊢
  simp only [Image.mk.injEq, true_and]
  have hfun : (fun i => Image.pixel ⟨w, h, px⟩ (i % w * w / w) (i / w * h / h)) =
      fun i => px.getD i Qt.white := by
    funext i
    have h1 : i % w * w / w = i % w := Nat.mul_div_cancel _ hw
    have h2 : i / w * h / h = i / w := Nat.mul_div_cancel _ hh
    rw [h1, h2]
    unfold Image.pixel
    dsimp only
    congr 1
    exact Nat.div_add_mod' i w
  rw [hfun, ← hwf, range_length_map_getD]

/-
The reference invariant holds in the initial state and is preserved by every
handler, so every reachable state satisfies it.
-/

theorem engineInv_initState (w h : Nat) : EngineInv (initState w h) := by
  refine ⟨?_, ?_, ?_⟩ <;> simp [initState, EngineInv]

theorem engineInv_press (s : PaintState) (b : MouseButton) (p : Point) (h : EngineInv s) :
    EngineInv (DrawingArea.mousePressEvent s b p) := by
  unfold DrawingArea.mousePressEvent
  split_ifs <;> simp_all [EngineInv]

theorem engineInv_move (s : PaintState) (held : Bool) (p : Point) (h : EngineInv s) :
    EngineInv (DrawingArea.mouseMoveEvent s held p) := by
  unfold DrawingArea.mouseMoveEvent
  split_ifs <;> simp_all [EngineInv]

theorem engineInv_release (s : PaintState) (b : MouseButton) (h : EngineInv s) :
    EngineInv (DrawingArea.mouseReleaseEvent s b) := by
  unfold DrawingArea.mouseReleaseEvent buttonAttributeEqualsLeftButton
  simpa using h

theorem engineInv_areaResize (s : PaintState) (w h : Nat) (hs : EngineInv s) :
    EngineInv (DrawingArea.resizeEvent s w h) := by
  obtain ⟨h1, h2, h3⟩ := hs
  unfold DrawingArea.resizeEvent
  refine ⟨?_, ?_, ?_⟩ <;> simp <;> omega

theorem engineInv_winResize (s : PaintState) (w h : Nat) (hs : EngineInv s) :
    EngineInv (Window.resizeEvent s w h) := by
  obtain ⟨h1, h2, h3⟩ := hs
  unfold Window.resizeEvent
  split_ifs
  · refine ⟨?_, ?_, ?_⟩ <;> simp <;> omega
  · exact ⟨h1, h2, h3⟩

theorem engineInv_mode (s : PaintState) (t : String) (hs : EngineInv s) :
    EngineInv (Window.changeDrawMode s t) := by
  obtain ⟨h1, h2, h3⟩ := hs
  unfold Window.changeDrawMode
  split_ifs <;> exact ⟨h1, h2, h3⟩

theorem engineInv_undo (s : PaintState) (hs : EngineInv s) : EngineInv (Window.undo s) := by
  obtain ⟨h1, h2, h3⟩ := hs
  unfold Window.undo
  refine ⟨?_, ?_, ?_⟩ <;> simp <;> omega

theorem engineInv_clear (s : PaintState) (hs : EngineInv s) : EngineInv (Window.clear s) := by
  obtain ⟨h1, h2, h3⟩ := hs
  unfold Window.clear
  exact ⟨by simpa using h1, by simpa using h2, h3⟩

theorem engineInv_open (s : PaintState) (c : Option Image) (hs : EngineInv s) :
    EngineInv (Window.open s c) := by
  obtain ⟨h1, h2, h3⟩ := hs
  unfold Window.open
  refine ⟨?_, ?_, ?_⟩ <;> simp <;> omega

theorem engineInv_sized (s : PaintState) (v : Nat) (hs : EngineInv s) :
    EngineInv (Window.sizeSliderChange s v) := hs

theorem engineInv_join (s : PaintState) (t : String) (ck : Bool) (hs : EngineInv s) :
    EngineInv (Window.changeBrushJoin s t ck) := by
  unfold Window.changeBrushJoin
  split_ifs <;> exact hs

theorem engineInv_cap (s : PaintState) (t : String) (ck : Bool) (hs : EngineInv s) :
    EngineInv (Window.changeBrushCap s t ck) := by
  unfold Window.changeBrushCap
  split_ifs <;> exact hs

theorem engineInv_style (s : PaintState) (t : String) (ck : Bool) (hs : EngineInv s) :
    EngineInv (Window.changeBrushStyle s t ck) := by
  unfold Window.changeBrushStyle
  split_ifs <;> exact hs

theorem engineInv_color (s : PaintState) (c : Option Color) (hs : EngineInv s) :
    EngineInv (Window.showColorDialog s c) := by
  unfold Window.showColorDialog
  cases c <;> exact hs

/-- Every reachable state keeps the live and undo slots in-heap and distinct. -/
theorem reachable_engineInv (s : PaintState) (h : Reachable s) : EngineInv s := by
  induction h with
  | init w h => exact engineInv_initState w h
  | press s b p _ ih => exact engineInv_press s b p ih
  | move s held p _ ih => exact engineInv_move s held p ih
  | release s b _ ih => exact engineInv_release s b ih
  | areaResized s w h _ ih => exact engineInv_areaResize s w h ih
  | windowResized s w h _ ih => exact engineInv_winResize s w h ih
  | modeChanged s t _ ih => exact engineInv_mode s t ih
  | undone s _ ih => exact engineInv_undo s ih
  | cleared s _ ih => exact engineInv_clear s ih
  | opened s c _ ih => exact engineInv_open s c ih
  | sized s v _ ih => exact engineInv_sized s v ih
  | joinChanged s t ck _ ih => exact engineInv_join s t ck ih
  | capChanged s t ck _ ih => exact engineInv_cap s t ck ih
  | styleChanged s t ck _ ih => exact engineInv_style s t ck ih
  | colorChanged s c _ ih => exact engineInv_color s c ih

/-
Characterizations of single handlers, shared by the claim proofs below.
-/

/-- The release handler is the identity on the whole engine state: its guard
compares the bound method `event.button` with `Qt.LeftButton` and is never
true. -/
theorem mouseReleaseEvent_eq (s : PaintState) (b : MouseButton) :
    DrawingArea.mouseReleaseEvent s b = s := by
  unfold DrawingArea.mouseReleaseEvent buttonAttributeEqualsLeftButton
  simp

/-- A left press in Point mode: draw the point in place, set the flag,
record the anchor. -/
theorem mousePress_point (s : PaintState) (p : Point) (hmode : s.drawMode = DrawMode.Point) :
    DrawingArea.mousePressEvent s MouseButton.LeftButton p =
      { s with heap := s.heap.set s.image (s.live.drawPoint s.pen p)
               drawing := true
               lastPoint := p } := by
  unfold DrawingArea.mousePressEvent
  rw [if_pos rfl, if_pos hmode]

/-- A left press in Line mode with no pending anchor (`lastPoint == QPoint()`):
record the press position as anchor, draw nothing. -/
theorem mousePress_line_anchor (s : PaintState) (q : Point)
    (hmode : s.drawMode = DrawMode.Line) (hanchor : s.lastPoint = Point.zero) :
    DrawingArea.mousePressEvent s MouseButton.LeftButton q = { s with lastPoint := q } := by
  unfold DrawingArea.mousePressEvent
  rw [if_pos rfl, if_neg (by rw [hmode]; simp), if_pos hmode, if_pos hanchor]

/-- A left press in Line mode with a pending anchor: draw the line from the
anchor to the press position in place and reset the anchor. -/
theorem mousePress_line_draw (s : PaintState) (q : Point)
    (hmode : s.drawMode = DrawMode.Line) (hanchor : s.lastPoint ≠ Point.zero) :
    DrawingArea.mousePressEvent s MouseButton.LeftButton q =
      { s with heap := s.heap.set s.image (s.live.drawLine s.pen s.lastPoint q)
               lastPoint := Point.zero } := by
  unfold DrawingArea.mousePressEvent
  rw [if_pos rfl, if_neg (by rw [hmode]; simp), if_pos hmode, if_neg hanchor]

/-- What the live slot holds right after `Window.undo`. -/
theorem undo_live (t : PaintState) :
    (Window.undo t).live =
      (if (t.buf t.savedImage).width ≠ 0 then
        Image.scaled (t.buf t.savedImage) t.areaWidth t.areaHeight
      else whiteImage t.areaWidth t.areaHeight) := by
  unfold Window.undo PaintState.live PaintState.buf
  dsimp only
  rw [getD_append_one]
  simp

/-- After `Window.undo`, the undo slot holds the old live buffer. -/
theorem undo_savedBuf (t : PaintState) (ht : t.image < t.heap.length) :
    (Window.undo t).buf (Window.undo t).savedImage = t.live := by
  unfold Window.undo PaintState.live PaintState.buf
  dsimp only
  rw [getD_append_one, if_neg (by omega)]

theorem undo_areaWidth (t : PaintState) : (Window.undo t).areaWidth = t.areaWidth := rfl

theorem undo_areaHeight (t : PaintState) : (Window.undo t).areaHeight = t.areaHeight := rfl

theorem open_areaWidth (t : PaintState) (c : Option Image) :
    (Window.open t c).areaWidth = t.areaWidth := rfl

theorem open_areaHeight (t : PaintState) (c : Option Image) :
    (Window.open t c).areaHeight = t.areaHeight := rfl

/-
The claims.
-/

/-- C1: the spec says a left-button pointer release in the PointDrawing state
transitions the engine to Idle and commits the surface through the two-slot
swap (savedImage ← resizeSavedImage, resizeSavedImage ← image) before the
drawing flag is cleared.  The code never does any of this: line 137 compares
the bound method `event.button` (uncalled) with `Qt.LeftButton`, the guard is
false for every event, and the release handler returns the state unchanged —
in particular the drawing flag and both snapshot slots keep their values. -/
theorem c1_release_handler_dead (s : PaintState) (b : MouseButton) :
    DrawingArea.mouseReleaseEvent s b = s ∧
    (DrawingArea.mouseReleaseEvent s b).drawing = s.drawing ∧
    (DrawingArea.mouseReleaseEvent s b).savedImage = s.savedImage ∧
    (DrawingArea.mouseReleaseEvent s b).resizeSavedImage = s.resizeSavedImage := by
  have h := mouseReleaseEvent_eq s b
  exact ⟨h, by rw [h], by rw [h], by rw [h]⟩

/-- C3 counterexample: from a 2×1 canvas with one black pixel drawn at
(0, 0), opening undecodable bytes does not leave the canvas unmodified — the
live surface becomes the null image was, destroying the drawn work. -/
theorem c3_counterexample :
    c3Drawn.live ≠ (Window.open c3Drawn none).live ∧
    (Window.open c3Drawn none).live = Image.null := by decide

/-- C3 (amended): when an open is given bytes that fail to decode,
`loadFromData` nulls the live image in place, scaling the null image yields
the null image again, and `resizeSavedImage` is pointed at it: for every
state, a failed open leaves the live surface equal to the null image (the
existing canvas content is destroyed, not preserved). -/
theorem c3_amended (s : PaintState) :
    (Window.open s none).live = Image.null ∧
    (Window.open s none).buf (Window.open s none).resizeSavedImage = Image.null := by
  have hnull : Image.scaled Image.null s.areaWidth s.areaHeight = Image.null := by
    unfold Image.scaled Image.null
    simp
  constructor
  · unfold Window.open PaintState.live PaintState.buf
    dsimp only
    rw [getD_append_one]
    simp [hnull]
  · unfold Window.open PaintState.buf
    dsimp only
    rw [getD_append_one]
    simp [hnull]

/-- C4 counterexample: in Line mode on a fresh 60×1 canvas, a press at
(0, 0) stores `QPoint()` itself as the anchor, which is indistinguishable
from "no anchor": the machine is still Idle (not LinePending), and the next
press at (50, 0) does not draw the claimed horizontal line — the canvas is
still all white and (50, 0) is recorded as a new pending anchor instead. -/
theorem c4_counterexample :
    c4Press1.lastPoint = Point.zero ∧
    specStrokeState c4Press1 = StrokeMachine.Idle ∧
    c4Press2.live = whiteImage 60 1 ∧
    c4Press2.lastPoint = ⟨50, 0⟩ := by decide

/-- C4 (amended): in Line mode from Idle with no anchor set, a primary press
at any position *other than (0, 0)* draws nothing, records the position as
pending anchor (LinePending), and the next primary press draws a line from
that anchor to the new position, clears the anchor and returns the machine
to Idle.  A press at (0, 0) stores the no-anchor sentinel `QPoint()` and so
leaves the machine effectively Idle (the previous theorem). -/
theorem c4_amended (s : PaintState) (p q : Point)
    (himg : s.image < s.heap.length) (hmode : s.drawMode = DrawMode.Line)
    (hdraw : s.drawing = false) (hanchor : s.lastPoint = Point.zero)
    (hp : p ≠ Point.zero) :
    (DrawingArea.mousePressEvent s MouseButton.LeftButton p).live = s.live ∧
    (DrawingArea.mousePressEvent s MouseButton.LeftButton p).lastPoint = p ∧
    specStrokeState (DrawingArea.mousePressEvent s MouseButton.LeftButton p) =
      StrokeMachine.LinePending ∧
    (DrawingArea.mousePressEvent (DrawingArea.mousePressEvent s MouseButton.LeftButton p)
        MouseButton.LeftButton q).live = s.live.drawLine s.pen p q ∧
    (DrawingArea.mousePressEvent (DrawingArea.mousePressEvent s MouseButton.LeftButton p)
        MouseButton.LeftButton q).lastPoint = Point.zero ∧
    specStrokeState (DrawingArea.mousePressEvent
        (DrawingArea.mousePressEvent s MouseButton.LeftButton p)
        MouseButton.LeftButton q) = StrokeMachine.Idle := by
  rw [mousePress_line_anchor s p hmode hanchor]
  rw [mousePress_line_draw { s with lastPoint := p } q hmode hp]
  refine ⟨rfl, rfl, ?_, ?_, rfl, ?_⟩
  · unfold specStrokeState
    rw [if_neg (by simp [hdraw]), if_pos ⟨hmode, hp⟩]
  · unfold PaintState.live PaintState.buf
    dsimp only
    exact getD_set_self _ _ _ _ himg
  · unfold specStrokeState
    rw [if_neg (by simp [hdraw]), if_neg (by simp)]

/-- C4 witness: the amended behaviour at concrete inputs — a fresh 4×1
canvas in Line mode, presses at (1, 0) and (3, 0). -/
theorem c4_witness :
    (DrawingArea.mousePressEvent c4SmallLineMode MouseButton.LeftButton ⟨1, 0⟩).live =
      c4SmallLineMode.live ∧
    (DrawingArea.mousePressEvent c4SmallLineMode MouseButton.LeftButton ⟨1, 0⟩).lastPoint =
      (⟨1, 0⟩ : Point) ∧
    specStrokeState (DrawingArea.mousePressEvent c4SmallLineMode MouseButton.LeftButton ⟨1, 0⟩) =
      StrokeMachine.LinePending ∧
    (DrawingArea.mousePressEvent
        (DrawingArea.mousePressEvent c4SmallLineMode MouseButton.LeftButton ⟨1, 0⟩)
        MouseButton.LeftButton ⟨3, 0⟩).live =
      c4SmallLineMode.live.drawLine c4SmallLineMode.pen ⟨1, 0⟩ ⟨3, 0⟩ ∧
    (DrawingArea.mousePressEvent
        (DrawingArea.mousePressEvent c4SmallLineMode MouseButton.LeftButton ⟨1, 0⟩)
        MouseButton.LeftButton ⟨3, 0⟩).lastPoint = Point.zero ∧
    specStrokeState (DrawingArea.mousePressEvent
        (DrawingArea.mousePressEvent c4SmallLineMode MouseButton.LeftButton ⟨1, 0⟩)
        MouseButton.LeftButton ⟨3, 0⟩) = StrokeMachine.Idle :=
  c4_amended c4SmallLineMode ⟨1, 0⟩ ⟨3, 0⟩ (by decide) (by decide) (by decide) (by decide)
    (by decide)

/-- C5 counterexample: a successful open points `resizeSavedImage` at the
very object `image` points at (no copy is taken); the next Point-mode press
mutates that shared buffer, so the stored snapshot's pixel content changes
together with the live surface — it is not an independent copy. -/
theorem c5_counterexample :
    c5Drawn.buf c5Drawn.resizeSavedImage ≠ c5Opened.buf c5Opened.resizeSavedImage ∧
    c5Drawn.buf c5Drawn.resizeSavedImage = c5Drawn.live := by decide

/-- C5 (amended): the snapshot slots receive references, not copies.  After
every successful open, `resizeSavedImage` aliases the live slot, and any
subsequent Point-mode press mutates the shared buffer, so the snapshot's
content remains identical to the (mutated) live surface instead of staying
unchanged. -/
theorem c5_amended (s : PaintState) (d : Image) (pos : Point)
    (hmode : s.drawMode = DrawMode.Point) :
    (Window.open s (some d)).resizeSavedImage = (Window.open s (some d)).image ∧
    (DrawingArea.mousePressEvent (Window.open s (some d)) MouseButton.LeftButton pos).buf
        (DrawingArea.mousePressEvent (Window.open s (some d))
          MouseButton.LeftButton pos).resizeSavedImage =
      (DrawingArea.mousePressEvent (Window.open s (some d)) MouseButton.LeftButton pos).live := by
  refine ⟨rfl, ?_⟩
  rw [mousePress_point (Window.open s (some d)) pos hmode]
  rfl

/-- C5 witness: the amended behaviour at concrete inputs — open the 1×1 red
image on a fresh 2×1 canvas, then press at (0, 0). -/
theorem c5_witness :
    (Window.open (initState 2 1) (some redDot)).resizeSavedImage =
      (Window.open (initState 2 1) (some redDot)).image ∧
    (DrawingArea.mousePressEvent (Window.open (initState 2 1) (some redDot))
        MouseButton.LeftButton ⟨0, 0⟩).buf
      (DrawingArea.mousePressEvent (Window.open (initState 2 1) (some redDot))
        MouseButton.LeftButton ⟨0, 0⟩).resizeSavedImage =
      (DrawingArea.mousePressEvent (Window.open (initState 2 1) (some redDot))
        MouseButton.LeftButton ⟨0, 0⟩).live :=
  c5_amended (initState 2 1) redDot ⟨0, 0⟩ rfl

/-- C6 counterexample: open the red image (the open aliases
`resizeSavedImage` with the live slot), let the drawing area's own resize
handler rebind the live slot (breaking the alias), draw a black pixel, then
deliver a main-window resize to the same 2×1 size: `Window.resizeEvent`
replaces the live surface with the *stale snapshot* rescaled — not with the
pre-resize live content rescaled — so the black pixel drawn since is lost. -/
theorem c6_counterexample :
    (Window.resizeEvent c6Drawn 2 1).live ≠ Image.scaled c6Drawn.live 2 1 ∧
    (Window.resizeEvent c6Drawn 2 1).live =
      Image.scaled (c6Drawn.buf c6Drawn.resizeSavedImage) 2 1 := by decide

/-- C6 (amended): the two resize handlers behave differently.  The drawing
area's own handler stretches the previously live content to the new size, as
the claim says; but the main window's handler, whenever `resizeSavedImage`
has nonzero width, replaces the live surface with *that snapshot* rescaled
(and leaves the live buffer untouched when the snapshot is zero wide), so
strokes drawn since `resizeSavedImage` last changed survive a main-window
resize only while the snapshot still aliases the live buffer. -/
theorem c6_amended (s : PaintState) (w h : Nat) :
    (DrawingArea.resizeEvent s w h).live = Image.scaled s.live w h ∧
    (Window.resizeEvent s w h).live =
      (if (s.buf s.resizeSavedImage).width ≠ 0 then
        Image.scaled (s.buf s.resizeSavedImage) w h
      else s.live) := by
  constructor
  · unfold DrawingArea.resizeEvent PaintState.live PaintState.buf
    dsimp only
    rw [getD_append_one]
    simp
  · unfold Window.resizeEvent
    split_ifs with hc
    · unfold PaintState.live PaintState.buf
      dsimp only
      rw [getD_append_one]
      simp
    · rfl

/-- C8 counterexample: a reachable state in Line mode with a pending anchor
but with the drawing flag still set (a Point-mode press set it and the dead
release handler never cleared it).  Changing the draw mode does not force
the stroke machine back to Idle: the drawing flag survives, so the machine
reads PointDrawing, not Idle. -/
theorem c8_counterexample :
    c8Pending.drawMode = DrawMode.Line ∧
    c8Pending.lastPoint ≠ Point.zero ∧
    specStrokeState (Window.changeDrawMode c8Pending "Point") ≠ StrokeMachine.Idle ∧
    (Window.changeDrawMode c8Pending "Point").drawing = true := by decide

/-- C8 (amended): changing the draw mode always clears the pending anchor
(`lastPoint` becomes `QPoint()`), draws nothing (the heap is untouched) and
leaves the drawing flag as it was (so the machine is *not* forced to Idle
when the flag is set); and the discarded anchor has no influence at all on
the engine afterwards — the result of the mode change is independent of the
anchor value, so no later press can connect to it. -/
theorem c8_amended (s : PaintState) (t : String) (a : Point) :
    (Window.changeDrawMode s t).lastPoint = Point.zero ∧
    (Window.changeDrawMode s t).heap = s.heap ∧
    (Window.changeDrawMode s t).drawing = s.drawing ∧
    Window.changeDrawMode { s with lastPoint := a } t = Window.changeDrawMode s t := by
  unfold Window.changeDrawMode
  split_ifs <;> exact ⟨rfl, rfl, rfl, rfl⟩

/-- C7 counterexample: a reachable state with unchanged viewport dimensions
where undo is not its own inverse.  After a failed open the live image is
null (0 wide); two undos in a row yield the white 2×1 canvas, not the null
image that was live before the first undo. -/
theorem c7_counterexample :
    (Window.undo (Window.undo c7Broken)).areaWidth = c7Broken.areaWidth ∧
    (Window.undo (Window.undo c7Broken)).areaHeight = c7Broken.areaHeight ∧
    (Window.undo (Window.undo c7Broken)).live ≠ c7Broken.live := by decide

/-- C7 (amended): undo replaces the live surface with the stored snapshot
rescaled to the viewport (or a fresh white canvas when the snapshot is zero
wide), and the pre-undo live buffer becomes the new stored snapshot; the
double-undo toggle restoring the pre-undo pixel content holds *provided* the
live surface is well formed with dimensions equal to the (positive) viewport
dimensions — not for every state, as the failed-open counterexample shows. -/
theorem c7_amended (s : PaintState)
    (himg : s.image < s.heap.length)
    (hwf : s.live.WF) (hW : s.live.width = s.areaWidth) (hH : s.live.height = s.areaHeight)
    (hw : 0 < s.areaWidth) (hh : 0 < s.areaHeight) :
    (Window.undo s).live =
      (if (s.buf s.savedImage).width ≠ 0 then
        Image.scaled (s.buf s.savedImage) s.areaWidth s.areaHeight
      else whiteImage s.areaWidth s.areaHeight) ∧
    (Window.undo s).buf (Window.undo s).savedImage = s.live ∧
    (Window.undo (Window.undo s)).live = s.live := by
  have h2 : (Window.undo s).buf (Window.undo s).savedImage = s.live := undo_savedBuf s himg
  refine ⟨undo_live s, h2, ?_⟩
  rw [undo_live (Window.undo s), h2, if_pos (by rw [hW]; omega),
    undo_areaWidth, undo_areaHeight, ← hW, ← hH]
  exact Image.scaled_self s.live hwf (by rw [hW]; omega) (by rw [hH]; omega)

/-- C7 witness: the amended behaviour at the initial 2×1 state. -/
theorem c7_witness :
    (Window.undo (initState 2 1)).live =
      (if ((initState 2 1).buf (initState 2 1).savedImage).width ≠ 0 then
        Image.scaled ((initState 2 1).buf (initState 2 1).savedImage) 2 1
      else whiteImage 2 1) ∧
    (Window.undo (initState 2 1)).buf (Window.undo (initState 2 1)).savedImage =
      (initState 2 1).live ∧
    (Window.undo (Window.undo (initState 2 1))).live = (initState 2 1).live :=
  c7_amended (initState 2 1) (by decide) rfl rfl rfl (by decide) (by decide)

/-- C9: Window.clear fills every pixel of the live surface white in place
and leaves the stroke input state untouched — `lastPoint` and the drawing
flag keep their values — so a Line-mode left press made after clear, with an
anchor that was pending before clear, draws a line from that pre-clear
anchor onto the freshly cleared canvas (and resets the anchor). -/
theorem c9_clear_keeps_stroke_state (s : PaintState) (q : Point)
    (himg : s.image < s.heap.length)
    (hmode : s.drawMode = DrawMode.Line)
    (hanchor : s.lastPoint ≠ Point.zero) :
    (Window.clear s).lastPoint = s.lastPoint ∧
    (Window.clear s).drawing = s.drawing ∧
    (Window.clear s).live = s.live.fill Qt.white ∧
    (DrawingArea.mousePressEvent (Window.clear s) MouseButton.LeftButton q).live =
      (s.live.fill Qt.white).drawLine s.pen s.lastPoint q ∧
    (DrawingArea.mousePressEvent (Window.clear s) MouseButton.LeftButton q).lastPoint =
      Point.zero := by
  have hclearLive : (Window.clear s).live = s.live.fill Qt.white := by
    unfold Window.clear PaintState.live PaintState.buf
    dsimp only
    exact getD_set_self _ _ _ _ himg
  have hpress := mousePress_line_draw (Window.clear s) q hmode hanchor
  refine ⟨rfl, rfl, hclearLive, ?_, ?_⟩
  · rw [hpress]
    unfold PaintState.live PaintState.buf
    dsimp only
    rw [getD_set_self _ _ _ _ (by simpa [Window.clear] using himg)]
    have hdefeq : (Window.clear s).heap.getD (Window.clear s).image Image.null =
        s.live.fill Qt.white := hclearLive
    rw [hdefeq]
    rfl
  · rw [hpress]

/-- C9 witness: clear on a 2×1 Line-mode state with pending anchor (1, 0),
then a press at (0, 0). -/
theorem c9_witness :
    (Window.clear c9State).lastPoint = c9State.lastPoint ∧
    (Window.clear c9State).drawing = c9State.drawing ∧
    (Window.clear c9State).live = c9State.live.fill Qt.white ∧
    (DrawingArea.mousePressEvent (Window.clear c9State) MouseButton.LeftButton ⟨0, 0⟩).live =
      (c9State.live.fill Qt.white).drawLine c9State.pen c9State.lastPoint ⟨0, 0⟩ ∧
    (DrawingArea.mousePressEvent (Window.clear c9State) MouseButton.LeftButton ⟨0, 0⟩).lastPoint =
      Point.zero :=
  c9_clear_keeps_stroke_state c9State ⟨0, 0⟩ (by decide) (by decide) (by decide)

/-- C2 counterexample: on a fresh 2×1 canvas, complete stroke A (press at
(0, 0), release) and stroke B (press at (1, 0), release).  The state after A
has pixel row [black, white]; but the first undo paints the canvas white —
it does not restore the state after stroke A. -/
theorem c2_counterexample :
    c2AfterA.live = ⟨2, 1, [Qt.black, Qt.white]⟩ ∧
    (Window.undo c2AfterB).live = whiteImage 2 1 ∧
    (Window.undo c2AfterB).live ≠ c2AfterA.live := by decide

/-- C2 (amended): because the release handler's guard is never true, the
releases after strokes A and B commit nothing, so the undo snapshot is still
the zero-width initial one: from any Point-mode state whose undo snapshot is
zero wide and whose live surface matches the (positive) viewport, the first
undo after the two completed strokes paints the canvas white (not the state
after stroke A), and the second undo restores the state after stroke B. -/
theorem c2_amended (s : PaintState) (p1 p2 : Point)
    (himg : s.image < s.heap.length)
    (hne : s.savedImage ≠ s.image)
    (hmode : s.drawMode = DrawMode.Point)
    (hsaved : (s.buf s.savedImage).width = 0)
    (hwf : s.live.WF) (hW : s.live.width = s.areaWidth) (hH : s.live.height = s.areaHeight)
    (hw : 0 < s.areaWidth) (hh : 0 < s.areaHeight) :
    (Window.undo (twoStrokes s p1 p2)).live = whiteImage s.areaWidth s.areaHeight ∧
    (Window.undo (Window.undo (twoStrokes s p1 p2))).live = (twoStrokes s p1 p2).live := by
  have hts : twoStrokes s p1 p2 =
      { s with heap := s.heap.set s.image ((s.live.drawPoint s.pen p1).drawPoint s.pen p2)
               drawing := true
               lastPoint := p2 } := by
    unfold twoStrokes
    rw [mouseReleaseEvent_eq, mouseReleaseEvent_eq, mousePress_point s p1 hmode]
    rw [mousePress_point { s with
        heap := s.heap.set s.image (s.live.drawPoint s.pen p1)
        drawing := true
        lastPoint := p1 } p2 hmode]
    have hlive1 : (PaintState.live { s with
        heap := s.heap.set s.image (s.live.drawPoint s.pen p1)
        drawing := true
        lastPoint := p1 }) = s.live.drawPoint s.pen p1 := by
      unfold PaintState.live PaintState.buf
      dsimp only
      exact getD_set_self _ _ _ _ himg
    rw [hlive1]
    simp only [List.set_set]
    rfl
  have hBsaved : (twoStrokes s p1 p2).buf (twoStrokes s p1 p2).savedImage =
      s.buf s.savedImage := by
    rw [hts]
    unfold PaintState.buf
    dsimp only
    exact getD_set_ne _ _ _ _ _ (Ne.symm hne)
  have hBlive : (twoStrokes s p1 p2).live = (s.live.drawPoint s.pen p1).drawPoint s.pen p2 := by
    rw [hts]
    unfold PaintState.live PaintState.buf
    dsimp only
    exact getD_set_self _ _ _ _ himg
  have hshape1 := Image.drawPoint_shape s.live s.pen p1
  have hshape2 := Image.drawPoint_shape (s.live.drawPoint s.pen p1) s.pen p2
  have hBW : (twoStrokes s p1 p2).live.width = s.areaWidth := by
    rw [hBlive, hshape2.1, hshape1.1, hW]
  have hBH : (twoStrokes s p1 p2).live.height = s.areaHeight := by
    rw [hBlive, hshape2.2.1, hshape1.2.1, hH]
  have hBwf : (twoStrokes s p1 p2).live.WF := by
    rw [hBlive]
    unfold Image.WF
    rw [hshape2.2.2, hshape1.2.2, hshape2.1, hshape1.1, hshape2.2.1, hshape1.2.1]
    exact hwf
  have hBaw : (twoStrokes s p1 p2).areaWidth = s.areaWidth := by rw [hts]
  have hBah : (twoStrokes s p1 p2).areaHeight = s.areaHeight := by rw [hts]
  have hBimg : (twoStrokes s p1 p2).image < (twoStrokes s p1 p2).heap.length := by
    rw [hts]
    simpa using himg
  constructor
  · rw [undo_live, hBsaved, if_neg (by rw [hsaved]; simp), hBaw, hBah]
  · rw [undo_live (Window.undo (twoStrokes s p1 p2)), undo_savedBuf _ hBimg,
      if_pos (by rw [hBW]; omega), undo_areaWidth, undo_areaHeight, hBaw, hBah,
      ← hBW, ← hBH]
    exact Image.scaled_self _ hBwf (by rw [hBW]; omega) (by rw [hBH]; omega)

/-- C2 witness: the amended behaviour at concrete inputs — a fresh 2×1
canvas, strokes at (0, 0) and (1, 0). -/
theorem c2_witness :
    (Window.undo (twoStrokes (initState 2 1) ⟨0, 0⟩ ⟨1, 0⟩)).live = whiteImage 2 1 ∧
    (Window.undo (Window.undo (twoStrokes (initState 2 1) ⟨0, 0⟩ ⟨1, 0⟩))).live =
      (twoStrokes (initState 2 1) ⟨0, 0⟩ ⟨1, 0⟩).live :=
  c2_amended (initState 2 1) ⟨0, 0⟩ ⟨1, 0⟩ (by decide) (by decide) rfl (by decide) rfl rfl rfl
    (by decide) (by decide)

/-- C10: from every reachable state, a successful open rebinds the live slot
(to the decoded image scaled to the viewport) and points `resizeSavedImage`
at the same fresh buffer, but never touches the undo snapshot `savedImage` —
neither the reference nor the buffer it denotes; consequently an undo
invoked immediately after the open restores whatever `savedImage` held
before the open, rescaled to the viewport (or fills white if that snapshot
is zero wide), not the pre-open canvas. -/
theorem c10_open_never_touches_undo_snapshot (s : PaintState) (d : Image)
    (hr : Reachable s) :
    (Window.open s (some d)).savedImage = s.savedImage ∧
    (Window.open s (some d)).buf (Window.open s (some d)).savedImage = s.buf s.savedImage ∧
    (Window.open s (some d)).live = Image.scaled d s.areaWidth s.areaHeight ∧
    (Window.open s (some d)).buf (Window.open s (some d)).resizeSavedImage =
      (Window.open s (some d)).live ∧
    (Window.undo (Window.open s (some d))).live =
      (if (s.buf s.savedImage).width ≠ 0 then
        Image.scaled (s.buf s.savedImage) s.areaWidth s.areaHeight
      else whiteImage s.areaWidth s.areaHeight) := by
  obtain ⟨himg, hsb, hne⟩ := reachable_engineInv s hr
  have h2 : (Window.open s (some d)).buf (Window.open s (some d)).savedImage =
      s.buf s.savedImage := by
    unfold Window.open PaintState.buf
    dsimp only
    rw [getD_append_one, if_neg (by simpa using Nat.ne_of_lt hsb)]
    exact getD_set_ne _ _ _ _ _ (Ne.symm hne)
  have h3 : (Window.open s (some d)).live = Image.scaled d s.areaWidth s.areaHeight := by
    unfold Window.open PaintState.live PaintState.buf
    dsimp only
    rw [getD_append_one, if_pos rfl]
  refine ⟨rfl, h2, h3, rfl, ?_⟩
  rw [undo_live (Window.open s (some d)), h2, open_areaWidth, open_areaHeight]

/-- C10 witness: the behaviour at a concrete reachable state — open the 1×1
red image on the fresh 2×1 canvas. -/
theorem c10_witness :
    (Window.open (initState 2 1) (some redDot)).savedImage = (initState 2 1).savedImage ∧
    (Window.open (initState 2 1) (some redDot)).buf
        (Window.open (initState 2 1) (some redDot)).savedImage =
      (initState 2 1).buf (initState 2 1).savedImage ∧
    (Window.open (initState 2 1) (some redDot)).live = Image.scaled redDot 2 1 ∧
    (Window.open (initState 2 1) (some redDot)).buf
        (Window.open (initState 2 1) (some redDot)).resizeSavedImage =
      (Window.open (initState 2 1) (some redDot)).live ∧
    (Window.undo (Window.open (initState 2 1) (some redDot))).live =
      (if ((initState 2 1).buf (initState 2 1).savedImage).width ≠ 0 then
        Image.scaled ((initState 2 1).buf (initState 2 1).savedImage) 2 1
      else whiteImage 2 1) :=
  c10_open_never_touches_undo_snapshot (initState 2 1) redDot (Reachable.init 2 1)
